import Mathlib

/-! # Helm release lifecycle of the agent (`cmd/agent/kubernetes/helm_actions.go`)

A shallow embedding of the seven functions of `helm_actions.go`.

* The process-wide variables (`helmActionConfigCache`, the allocation of fresh
  `action.Configuration` values) are threaded as an explicit `World`.
* Everything the file calls in other packages (the authenticator, the Helm SDK,
  the YAML decoder) is a field of `Env`: a result is whatever the collaborator
  answers, and every call is appended to `World.trace`, so that "is (not)
  invoked" and "is invoked with these settings" are statements about the trace.
* Go's `(value, error)` results are `Except GoError value`; an `error` result
  alone is `Option GoError`; a run-time panic is a separate outcome.
-/

namespace Distr

/-! ## Go values -/

/-- Go `error` values: a leaf error with its message, or an error made by
`fmt.Errorf(pre + "%w", cause)`, which keeps the cause for `errors.Unwrap`. -/
inductive GoError where
  | base (msg : String)
  | wrap (pre : String) (cause : GoError)
deriving DecidableEq, Repr

/-- The `Error()` method: the text of a wrapped error is the format's text
followed by the text of the cause. -/
def GoError.Error : GoError → String
  | .base msg => msg
  | .wrap pre cause => pre ++ cause.Error

/-- The `Unwrap()` method (`errors.Unwrap`). -/
def GoError.Unwrap : GoError → Option GoError
  | .base _ => none
  | .wrap _ cause => some cause

/-- The call `fmt.Errorf(pre + "%w", err)`. -/
def Errorf (pre : String) (err : GoError) : GoError :=
  .wrap pre err

/-- The test `strings.HasPrefix(s, pre)`, on the characters of the two strings. -/
def HasPrefix (s pre : String) : Bool :=
  pre.data.isPrefixOf s.data

/-- A `time.Duration`: a count of nanoseconds. -/
abbrev Duration := Int

def Nanosecond : Duration := 1
def Microsecond : Duration := 1000 * Nanosecond
def Millisecond : Duration := 1000 * Microsecond
def Second : Duration := 1000 * Millisecond
def Minute : Duration := 60 * Second

/-- A `context.Context`; the functions only hand it on. -/
structure Context where
  id : Nat
deriving DecidableEq, Repr

/-- The outcome of a Go call that may also panic at run time. -/
inductive Outcome (α : Type) where
  | ok (value : α)
  | error (err : GoError)
  | panic (msg : String)
deriving DecidableEq, Repr

/-- The Go expression `xs[i]` on a slice: `none` stands for the run-time panic
"index out of range". -/
def index {α : Type} (xs : List α) (i : Int) : Option α :=
  if i < 0 then none else xs.get? i.toNat

/-! ## Types of the `api` package and of the Helm SDK -/

/-- The values tree of a deployment (`map[string]any`). -/
abbrev Values := List (String × String)

namespace api

/-- Modelled from the spec: the declaration of `api.AgentDeployment` is not
among the sources. It carries the `revisionId` of the deployment descriptor
and the deployment metadata the authenticator reads. -/
structure AgentDeployment where
  RevisionID : String
  AuthMetadata : String
deriving DecidableEq, Repr

/-- Modelled from the spec: the declaration of `api.KubernetesAgentDeployment`
is not among the sources. It embeds `AgentDeployment` and has the attributes of
the deployment descriptor that the code reads. -/
structure KubernetesAgentDeployment extends AgentDeployment where
  ReleaseName : String
  ChartName : String
  ChartVersion : String
  ChartUrl : String
  Values : Values
deriving DecidableEq, Repr

end api

/-- Modelled from the spec: the declaration of the record `AgentDeployment` of
package `main` is not among the sources. It is the release record that install
and upgrade return; its fields are the three of the composite literal in
`RunHelmInstall` and `RunHelmUpgrade`. -/
structure AgentDeployment where
  ReleaseName : String
  HelmRevision : Int
  RevisionID : String
deriving DecidableEq, Repr

/-- The credential provider that `agentauth.EnsureAuth` returns. -/
structure Authorizer where
  credentials : String
deriving DecidableEq, Repr

/-- A `registry.Client`, made from an authorizer. -/
structure RegistryClient where
  authorizer : Authorizer
deriving DecidableEq, Repr

/-- The global `k8sConfigFlags` (declared in another file of the package). -/
structure ConfigFlags where
  host : String
deriving DecidableEq, Repr

/-- The `cli.EnvSettings` behind the global `helmEnvSettings`. -/
structure EnvSettings where
  repositoryCache : String
deriving DecidableEq, Repr

/-- An `action.Configuration`. `addr` is the identity of the value (in Go the
functions pass `*action.Configuration`); `initNamespace` and `helmDriver` are
what `Init` was given. -/
structure Configuration where
  addr : Nat
  RegistryClient : Option RegistryClient
  initNamespace : String
  helmDriver : String
deriving DecidableEq, Repr

/-- The fields of `action.ChartPathOptions` that the code writes. -/
structure ChartPathOptions where
  RepoURL : String
  Version : String
deriving DecidableEq, Repr

/-- A loaded `chart.Chart`. -/
structure Chart where
  name : String
  version : String
deriving DecidableEq, Repr

/-- A `release.Release`: the fields the code reads. -/
structure Release where
  Name : String
  Version : Int
  Manifest : String
deriving DecidableEq, Repr

/-- An `action.Install`; `ChartPathOptions` is embedded. -/
structure Install extends ChartPathOptions where
  cfg : Configuration
  ReleaseName : String
  Timeout : Duration
  Wait : Bool
  Atomic : Bool
  Namespace : String
deriving DecidableEq, Repr

/-- An `action.Upgrade`; `ChartPathOptions` is embedded. -/
structure Upgrade extends ChartPathOptions where
  cfg : Configuration
  CleanupOnFail : Bool
  Timeout : Duration
  Wait : Bool
  Atomic : Bool
  Namespace : String
deriving DecidableEq, Repr

/-- An `action.Uninstall`. -/
structure Uninstall where
  cfg : Configuration
  Timeout : Duration
  Wait : Bool
  IgnoreNotFound : Bool
deriving DecidableEq, Repr

/-- An `action.History`. -/
structure History where
  cfg : Configuration
deriving DecidableEq, Repr

/-- An `action.Get`. -/
structure Get where
  cfg : Configuration
deriving DecidableEq, Repr

/-- A decoded resource (`unstructured.Unstructured`). -/
structure Unstructured where
  yaml : String
deriving DecidableEq, Repr

/-! ## Collaborators and state -/

/-- One call to a collaborator, with the arguments it was given. -/
inductive Event where
  | ensureAuth (ctx : Context) (deployment : api.AgentDeployment)
  | newClient (authorizer : Authorizer)
  | init (cfg : Configuration) (flags : ConfigFlags) (ns : String) (helmDriver : String)
  | locateChart (opts : ChartPathOptions) (name : String)
  | load (chartPath : String)
  | install (a : Install) (ctx : Context) (chart : Chart) (vals : Values)
  | upgrade (a : Upgrade) (ctx : Context) (name : String) (chart : Chart) (vals : Values)
  | uninstall (a : Uninstall) (name : String)
  | history (a : History) (name : String)
  | get (a : Get) (name : String)
deriving DecidableEq, Repr

def Event.isEnsureAuth : Event → Bool
  | .ensureAuth _ _ => true
  | _ => false

def Event.isNewClient : Event → Bool
  | .newClient _ => true
  | _ => false

def Event.isInit : Event → Bool
  | .init _ _ _ _ => true
  | _ => false

def Event.isLoad : Event → Bool
  | .load _ => true
  | _ => false

def Event.isInstall : Event → Bool
  | .install _ _ _ _ => true
  | _ => false

/-- The calls that `GetHelmActionConfig` can make. -/
def Event.isConnection (ev : Event) : Bool :=
  ev.isEnsureAuth || ev.isNewClient || ev.isInit

/-- The calls that `RunHelmPreflight` can make. -/
def Event.isResolver : Event → Bool
  | .locateChart _ _ => true
  | .load _ => true
  | _ => false

/-- The chart identifier of a call to `LocateChart`. -/
def Event.locatedName : Event → Option String
  | .locateChart _ name => some name
  | _ => none

/-- The options of a call to `LocateChart`. -/
def Event.locatedWith : Event → Option ChartPathOptions
  | .locateChart opts _ => some opts
  | _ => none

/-- What `helm_actions.go` calls outside itself: `agentauth.EnsureAuth`, the
Helm SDK (`registry`, `action`, `loader`), `DecodeResourceYaml` (another file
of the package), and the two globals it reads. -/
structure Env where
  k8sConfigFlags : ConfigFlags
  helmEnvSettings : EnvSettings
  EnsureAuth : Context → api.AgentDeployment → Except GoError Authorizer
  NewClient : Authorizer → Except GoError RegistryClient
  Init : Configuration → ConfigFlags → String → String → Option GoError
  IsOCI : String → Bool
  LocateChart : ChartPathOptions → String → EnvSettings → Except GoError String
  Load : String → Except GoError Chart
  NewInstall : Configuration → Install
  NewUpgrade : Configuration → Upgrade
  NewUninstall : Configuration → Uninstall
  NewHistory : Configuration → History
  NewGet : Configuration → Get
  InstallRun : Install → Context → Chart → Values → Except GoError Release
  UpgradeRun : Upgrade → Context → String → Chart → Values → Except GoError Release
  UninstallRun : Uninstall → String → Except GoError Unit
  HistoryRun : History → String → Except GoError (List Release)
  GetRun : Get → String → Except GoError Release
  DecodeResourceYaml : String → Except GoError (List Unstructured)

/-- The mutable state of the process: the map `helmActionConfigCache`, the
next fresh address for an `action.Configuration`, and the calls made so far. -/
structure World where
  helmActionConfigCache : List (String × Configuration)
  nextAddr : Nat
  trace : List Event
deriving DecidableEq, Repr

/-- Appends a call to the trace. -/
def World.record (w : World) (ev : Event) : World :=
  { w with trace := w.trace ++ [ev] }

/-- How many recorded calls satisfy `p`. -/
def World.calls (w : World) (p : Event → Bool) : Nat :=
  w.trace.countP p

/-! ## The functions of `helm_actions.go` -/

/-- The function `GetHelmActionConfig` (lines 24-53). -/
def GetHelmActionConfig (env : Env) (ctx : Context) (ns : String)
    (deployment : Option api.AgentDeployment) (w : World) :
    Except GoError Configuration × World :=
  match w.helmActionConfigCache.lookup ns with
  | some cfg => (.ok cfg, w)
  | none =>
    -- var cfg action.Configuration
    let cfg : Configuration :=
      { addr := w.nextAddr, RegistryClient := none, initNamespace := "", helmDriver := "" }
    let w := { w with nextAddr := w.nextAddr + 1 }
    let authed : Except GoError Configuration × World :=
      match deployment with
      | some d =>
        let w := w.record (.ensureAuth ctx d)
        match env.EnsureAuth ctx d with
        | .error err => (.error err, w)
        | .ok authorizer =>
          let w := w.record (.newClient authorizer)
          match env.NewClient authorizer with
          | .error err => (.error err, w)
          | .ok rc => (.ok { cfg with RegistryClient := some rc }, w)
      | none => (.ok cfg, w)
    match authed with
    | (.error err, w) => (.error err, w)
    | (.ok cfg, w) =>
      let w := w.record (.init cfg env.k8sConfigFlags ns "secret")
      match env.Init cfg env.k8sConfigFlags ns "secret" with
      | some err => (.error err, w)
      | none => (.ok { cfg with initNamespace := ns, helmDriver := "secret" }, w)

/-- The function `GetLatestHelmRelease` (lines 55-70). -/
def GetLatestHelmRelease (env : Env) (ctx : Context) (ns : String)
    (deployment : api.KubernetesAgentDeployment) (w : World) :
    Outcome Release × World :=
  match GetHelmActionConfig env ctx ns (some deployment.toAgentDeployment) w with
  | (.error err, w) => (.error err, w)
  | (.ok cfg, w) =>
    let historyAction := env.NewHistory cfg
    let w := w.record (.history historyAction deployment.ReleaseName)
    match env.HistoryRun historyAction deployment.ReleaseName with
    | .error err => (.error err, w)
    | .ok releases =>
      match index releases ((releases.length : Int) - 1) with
      | some r => (.ok r, w)
      | none => (.panic "runtime error: index out of range", w)

/-- The function `RunHelmPreflight` (lines 72-90). The options are passed by
pointer in Go, so the options as the function leaves them are returned too. -/
def RunHelmPreflight (env : Env) (action : ChartPathOptions)
    (deployment : api.KubernetesAgentDeployment) (w : World) :
    Except GoError Chart × ChartPathOptions × World :=
  let chartName := deployment.ChartName
  let action := { action with Version := deployment.ChartVersion }
  let chosen : String × ChartPathOptions :=
    if env.IsOCI deployment.ChartUrl then
      (deployment.ChartUrl, action)
    else
      (chartName, { action with RepoURL := deployment.ChartUrl })
  let chartName := chosen.1
  let action := chosen.2
  let w := w.record (.locateChart action chartName)
  match env.LocateChart action chartName env.helmEnvSettings with
  | .error err => (.error (Errorf "could not locate chart: " err), action, w)
  | .ok chartPath =>
    let w := w.record (.load chartPath)
    match env.Load chartPath with
    | .error err => (.error (Errorf "chart loading failed: " err), action, w)
    | .ok chart => (.ok chart, action, w)

/-- The install action as `RunHelmInstall` configures it before the preflight
(lines 102-108). -/
def installAction (env : Env) (config : Configuration) (ns : String)
    (deployment : api.KubernetesAgentDeployment) : Install :=
  let a := env.NewInstall config
  let a := { a with ReleaseName := deployment.ReleaseName }
  let a := { a with Timeout := 5 * Minute }
  let a := { a with Wait := true }
  let a := { a with Atomic := true }
  { a with Namespace := ns }

/-- The function `RunHelmInstall` (lines 92-120). -/
def RunHelmInstall (env : Env) (ctx : Context) (ns : String)
    (deployment : api.KubernetesAgentDeployment) (w : World) :
    Except GoError AgentDeployment × World :=
  match GetHelmActionConfig env ctx ns (some deployment.toAgentDeployment) w with
  | (.error err, w) => (.error err, w)
  | (.ok config, w) =>
    let a := installAction env config ns deployment
    match RunHelmPreflight env a.toChartPathOptions deployment w with
    | (.error err, _, w) => (.error (Errorf "helm preflight failed: " err), w)
    | (.ok chart, opts, w) =>
      let a := { a with toChartPathOptions := opts }
      let w := w.record (.install a ctx chart deployment.Values)
      match env.InstallRun a ctx chart deployment.Values with
      | .error err => (.error (Errorf "helm install failed: " err), w)
      | .ok release =>
        (.ok { ReleaseName := release.Name
               HelmRevision := release.Version
               RevisionID := deployment.RevisionID }, w)

/-- The upgrade action as `RunHelmUpgrade` configures it before the preflight
(lines 132-138). -/
def upgradeAction (env : Env) (cfg : Configuration) (ns : String) : Upgrade :=
  let a := env.NewUpgrade cfg
  let a := { a with CleanupOnFail := true }
  let a := { a with Timeout := 5 * Minute }
  let a := { a with Wait := true }
  let a := { a with Atomic := true }
  { a with Namespace := ns }

/-- The function `RunHelmUpgrade` (lines 122-151). -/
def RunHelmUpgrade (env : Env) (ctx : Context) (ns : String)
    (deployment : api.KubernetesAgentDeployment) (w : World) :
    Except GoError AgentDeployment × World :=
  match GetHelmActionConfig env ctx ns (some deployment.toAgentDeployment) w with
  | (.error err, w) => (.error err, w)
  | (.ok cfg, w) =>
    let a := upgradeAction env cfg ns
    match RunHelmPreflight env a.toChartPathOptions deployment w with
    | (.error err, _, w) => (.error (Errorf "helm preflight failed: " err), w)
    | (.ok chart, opts, w) =>
      let a := { a with toChartPathOptions := opts }
      let w := w.record (.upgrade a ctx deployment.ReleaseName chart deployment.Values)
      match env.UpgradeRun a ctx deployment.ReleaseName chart deployment.Values with
      | .error err => (.error (Errorf "helm upgrade failed: " err), w)
      | .ok release =>
        (.ok { ReleaseName := release.Name
               HelmRevision := release.Version
               RevisionID := deployment.RevisionID }, w)

/-- The uninstall action as `RunHelmUninstall` configures it (lines 159-162). -/
def uninstallAction (env : Env) (config : Configuration) : Uninstall :=
  let a := env.NewUninstall config
  let a := { a with Timeout := 5 * Minute }
  let a := { a with Wait := true }
  { a with IgnoreNotFound := true }

/-- The function `RunHelmUninstall` (lines 153-167); `none` is Go's `nil`
error. -/
def RunHelmUninstall (env : Env) (ctx : Context) (ns : String) (releaseName : String)
    (w : World) : Option GoError × World :=
  match GetHelmActionConfig env ctx ns none w with
  | (.error err, w) => (some err, w)
  | (.ok config, w) =>
    let a := uninstallAction env config
    let w := w.record (.uninstall a releaseName)
    match env.UninstallRun a releaseName with
    | .error err => (some (Errorf "helm uninstall failed: " err), w)
    | .ok _ => (none, w)

/-- The function `GetHelmManifest` (lines 169-185). -/
def GetHelmManifest (env : Env) (ctx : Context) (ns : String)
    (deployment : api.KubernetesAgentDeployment) (w : World) :
    Except GoError (List Unstructured) × World :=
  match GetHelmActionConfig env ctx ns (some deployment.toAgentDeployment) w with
  | (.error err, w) => (.error err, w)
  | (.ok cfg, w) =>
    let getAction := env.NewGet cfg
    let w := w.record (.get getAction deployment.ReleaseName)
    match env.GetRun getAction deployment.ReleaseName with
    | .error err => (.error err, w)
    | .ok release => (env.DecodeResourceYaml release.Manifest, w)

/-! ## Concrete collaborators, for evaluating the functions -/

/-- The test `registry.IsOCI` of the Helm SDK: the URL starts with the scheme
`oci` followed by `://`. -/
def isOCI (url : String) : Bool :=
  HasPrefix url "oci://"

/-- A cluster and registry on which every call succeeds: no release is
installed, an uninstall of an absent release succeeds only when the action
ignores not-found, and the history of a release has two revisions. -/
def happyEnv : Env where
  k8sConfigFlags := { host := "https://cluster" }
  helmEnvSettings := { repositoryCache := "/cache" }
  EnsureAuth := fun _ d => .ok { credentials := d.AuthMetadata }
  NewClient := fun authorizer => .ok { authorizer := authorizer }
  Init := fun _ _ _ _ => none
  IsOCI := isOCI
  LocateChart := fun _ name _ => .ok ("/cache/" ++ name)
  Load := fun chartPath => .ok { name := chartPath, version := "1.0.0" }
  NewInstall := fun cfg =>
    { RepoURL := "", Version := "", cfg := cfg, ReleaseName := "", Timeout := 0,
      Wait := false, Atomic := false, Namespace := "" }
  NewUpgrade := fun cfg =>
    { RepoURL := "", Version := "", cfg := cfg, CleanupOnFail := false, Timeout := 0,
      Wait := false, Atomic := false, Namespace := "" }
  NewUninstall := fun cfg =>
    { cfg := cfg, Timeout := 0, Wait := false, IgnoreNotFound := false }
  NewHistory := fun cfg => { cfg := cfg }
  NewGet := fun cfg => { cfg := cfg }
  InstallRun := fun a _ _ _ => .ok { Name := a.ReleaseName, Version := 1, Manifest := "" }
  UpgradeRun := fun _ _ name _ _ => .ok { Name := name, Version := 2, Manifest := "" }
  UninstallRun := fun a _ =>
    if a.IgnoreNotFound then .ok () else .error (.base "release: not found")
  HistoryRun := fun _ name =>
    .ok [{ Name := name, Version := 1, Manifest := "" }, { Name := name, Version := 2, Manifest := "" }]
  GetRun := fun _ name => .ok { Name := name, Version := 2, Manifest := "" }
  DecodeResourceYaml := fun _ => .ok []

/-- As `happyEnv`, but the authenticator refuses. -/
def authFailsEnv : Env :=
  { happyEnv with EnsureAuth := fun _ _ => .error (.base "unauthorized") }

/-- As `happyEnv`, but `Init` fails. -/
def initFailsEnv : Env :=
  { happyEnv with Init := fun _ _ _ _ => some (.base "cluster unreachable") }

/-- As `happyEnv`, but no chart can be located. -/
def locateFailsEnv : Env :=
  { happyEnv with LocateChart := fun _ _ _ => .error (.base "chart not found") }

/-- As `happyEnv`, but the located chart does not load. -/
def loadFailsEnv : Env :=
  { happyEnv with Load := fun _ => .error (.base "invalid chart") }

/-- As `happyEnv`, but the backend refuses to install and to upgrade. -/
def backendFailsEnv : Env :=
  { happyEnv with
    InstallRun := fun _ _ _ _ => .error (.base "cannot re-use a name that is still in use")
    UpgradeRun := fun _ _ _ _ _ => .error (.base "has no deployed releases")
    UninstallRun := fun _ _ => .error (.base "uninstallation failed")
    HistoryRun := fun _ _ => .error (.base "release: not found")
    GetRun := fun _ _ => .error (.base "release: not found") }

/-- As `happyEnv`, but the history query answers with an empty sequence and no
error. -/
def emptyHistoryEnv : Env :=
  { happyEnv with HistoryRun := fun _ _ => .ok [] }

/-- A fresh process: empty cache, nothing called yet. -/
def freshWorld : World :=
  { helmActionConfigCache := [], nextAddr := 0, trace := [] }

def someCtx : Context :=
  { id := 0 }

/-- The descriptor of the install scenario of the specification: an OCI chart. -/
def ociDeployment : api.KubernetesAgentDeployment :=
  { RevisionID := "rev-7", AuthMetadata := "token", ReleaseName := "app",
    ChartName := "app", ChartVersion := "1.0.0", ChartUrl := "oci://registry/app",
    Values := [("replicas", "2")] }

/-- The same descriptor with another OCI chart URL. -/
def ociDeploymentElsewhere : api.KubernetesAgentDeployment :=
  { ociDeployment with ChartUrl := "oci://mirror/app" }

/-- A descriptor of a chart in a classic HTTP repository. -/
def repoDeployment : api.KubernetesAgentDeployment :=
  { RevisionID := "rev-8", AuthMetadata := "token", ReleaseName := "web",
    ChartName := "nginx", ChartVersion := "2.3.4", ChartUrl := "https://charts.example.com",
    Values := [] }

/-- Chart path options as a caller may have left them. -/
def someOptions : ChartPathOptions :=
  { RepoURL := "https://old.example.com", Version := "0.0.1" }

/-- The configuration that `GetHelmActionConfig` builds for namespace `ns1` and
the OCI descriptor in a fresh process. -/
def ns1Config : Configuration :=
  { addr := 0, RegistryClient := some { authorizer := { credentials := "token" } },
    initNamespace := "ns1", helmDriver := "secret" }

/-- The install action with which `happyEnv` is asked to install the OCI
descriptor into namespace `ns1`. -/
def ns1Install : Install :=
  { RepoURL := "", Version := "1.0.0", cfg := ns1Config, ReleaseName := "app",
    Timeout := 300000000000, Wait := true, Atomic := true, Namespace := "ns1" }

/-- The upgrade action with which `happyEnv` is asked to upgrade the OCI
descriptor in namespace `ns1`. -/
def ns1Upgrade : Upgrade :=
  { RepoURL := "", Version := "1.0.0", cfg := ns1Config, CleanupOnFail := true,
    Timeout := 300000000000, Wait := true, Atomic := true, Namespace := "ns1" }

/-- The chart that `happyEnv` loads for the OCI descriptor. -/
def ociChart : Chart :=
  { name := "/cache/oci://registry/app", version := "1.0.0" }

/-! ## Facts about the embedding -/

theorem record_trace (w : World) (ev : Event) : (w.record ev).trace = w.trace ++ [ev] := rfl

/-- `GetHelmActionConfig` never writes the cache. -/
theorem GetHelmActionConfig_cache (env : Env) (ctx : Context) (ns : String)
    (deployment : Option api.AgentDeployment) (w : World) :
    (GetHelmActionConfig env ctx ns deployment w).2.helmActionConfigCache
      = w.helmActionConfigCache := by
  unfold GetHelmActionConfig
  split
  · rfl
  · cases deployment with
    | none =>
      simp only
      cases env.Init _ env.k8sConfigFlags ns "secret" <;> rfl
    | some d =>
      simp only
      cases env.EnsureAuth ctx d with
      | error e => rfl
      | ok a =>
        simp only
        cases env.NewClient a with
        | error e => rfl
        | ok rc =>
          simp only
          cases env.Init _ env.k8sConfigFlags ns "secret" <;> rfl

/-- On a cache miss with a descriptor, `GetHelmActionConfig` authenticates,
builds the registry client and initialises, in that order. -/
theorem GetHelmActionConfig_miss_some (env : Env) (ctx : Context) (ns : String)
    (d : api.AgentDeployment) (w : World)
    (hmiss : w.helmActionConfigCache.lookup ns = none) :
    GetHelmActionConfig env ctx ns (some d) w =
      match env.EnsureAuth ctx d with
      | .error err =>
        (.error err, { w with nextAddr := w.nextAddr + 1, trace := w.trace ++ [.ensureAuth ctx d] })
      | .ok authorizer =>
        match env.NewClient authorizer with
        | .error err =>
          (.error err, { w with nextAddr := w.nextAddr + 1,
                                trace := w.trace ++ [.ensureAuth ctx d, .newClient authorizer] })
        | .ok rc =>
          let cfg : Configuration :=
            { addr := w.nextAddr, RegistryClient := some rc, initNamespace := "", helmDriver := "" }
          let w1 : World :=
            { w with nextAddr := w.nextAddr + 1,
                     trace := w.trace ++ [.ensureAuth ctx d, .newClient authorizer,
                                          .init cfg env.k8sConfigFlags ns "secret"] }
          match env.Init cfg env.k8sConfigFlags ns "secret" with
          | some err => (.error err, w1)
          | none => (.ok { cfg with initNamespace := ns, helmDriver := "secret" }, w1) := by
  unfold GetHelmActionConfig
  rw [hmiss]
  simp only
  cases env.EnsureAuth ctx d with
  | error e => simp [World.record]
  | ok a =>
    simp only
    cases env.NewClient a with
    | error e => simp [World.record]
    | ok rc =>
      simp only
      cases env.Init _ env.k8sConfigFlags ns "secret" <;> simp [World.record]

/-- On a cache miss without a descriptor, `GetHelmActionConfig` only
initialises a configuration that has no registry client. -/
theorem GetHelmActionConfig_miss_none (env : Env) (ctx : Context) (ns : String) (w : World)
    (hmiss : w.helmActionConfigCache.lookup ns = none) :
    GetHelmActionConfig env ctx ns none w =
      let cfg : Configuration :=
        { addr := w.nextAddr, RegistryClient := none, initNamespace := "", helmDriver := "" }
      let w1 : World :=
        { w with nextAddr := w.nextAddr + 1,
                 trace := w.trace ++ [.init cfg env.k8sConfigFlags ns "secret"] }
      match env.Init cfg env.k8sConfigFlags ns "secret" with
      | some err => (.error err, w1)
      | none => (.ok { cfg with initNamespace := ns, helmDriver := "secret" }, w1) := by
  unfold GetHelmActionConfig
  rw [hmiss]
  simp only
  cases env.Init _ env.k8sConfigFlags ns "secret" <;> simp [World.record]

/-- On a cache hit, `GetHelmActionConfig` returns the cached value and calls
nothing. -/
theorem GetHelmActionConfig_hit (env : Env) (ctx : Context) (ns : String)
    (d : Option api.AgentDeployment) (w : World) (cfg : Configuration)
    (hhit : w.helmActionConfigCache.lookup ns = some cfg) :
    GetHelmActionConfig env ctx ns d w = (.ok cfg, w) := by
  unfold GetHelmActionConfig
  rw [hhit]

/-! ## C1: the connection cache -/

/-- C1 (the code does not do this): after a first successful call of
`GetHelmActionConfig` for a namespace that had no cache entry, the cache still
has no entry for that namespace; a second call for the same namespace calls
`EnsureAuth` once more, and a configuration it returns is a new value, not the
one the first call returned. -/
theorem C1_first_success_is_not_cached (env : Env) (ctx : Context) (ns : String)
    (d d' : api.AgentDeployment) (w w1 : World) (cfg : Configuration)
    (hmiss : w.helmActionConfigCache.lookup ns = none)
    (hfirst : GetHelmActionConfig env ctx ns (some d) w = (.ok cfg, w1)) :
    w1.helmActionConfigCache.lookup ns = none ∧
    (GetHelmActionConfig env ctx ns (some d') w1).2.calls Event.isEnsureAuth
      = w1.calls Event.isEnsureAuth + 1 ∧
    (∀ cfg', (GetHelmActionConfig env ctx ns (some d') w1).1 = .ok cfg' →
      cfg'.addr ≠ cfg.addr) := by
  have hcache : w1.helmActionConfigCache = w.helmActionConfigCache := by
    have h := GetHelmActionConfig_cache env ctx ns (some d) w
    rw [hfirst] at h
    exact h
  have hmiss1 : w1.helmActionConfigCache.lookup ns = none := by rw [hcache]; exact hmiss
  have haddr : cfg.addr = w.nextAddr ∧ w1.nextAddr = w.nextAddr + 1 := by
    rw [GetHelmActionConfig_miss_some env ctx ns d w hmiss] at hfirst
    cases hA : env.EnsureAuth ctx d with
    | error e => simp [hA] at hfirst
    | ok a =>
      cases hN : env.NewClient a with
      | error e => simp [hA, hN] at hfirst
      | ok rc =>
        simp only [hA, hN] at hfirst
        split at hfirst
        · simp at hfirst
        · simp only [Prod.mk.injEq, Except.ok.injEq] at hfirst
          obtain ⟨h1, h2⟩ := hfirst
          subst h1 h2
          exact ⟨rfl, rfl⟩
  refine ⟨hmiss1, ?_, ?_⟩
  · rw [GetHelmActionConfig_miss_some env ctx ns d' w1 hmiss1]
    cases hA : env.EnsureAuth ctx d' with
    | error e => simp [World.calls, Event.isEnsureAuth]
    | ok a =>
      cases hN : env.NewClient a with
      | error e => simp [hN, World.calls, Event.isEnsureAuth]
      | ok rc =>
        simp only [hN]
        split <;> simp [World.calls, Event.isEnsureAuth]
  · intro cfg' h
    rw [GetHelmActionConfig_miss_some env ctx ns d' w1 hmiss1] at h
    cases hA : env.EnsureAuth ctx d' with
    | error e => simp [hA] at h
    | ok a =>
      cases hN : env.NewClient a with
      | error e => simp [hA, hN] at h
      | ok rc =>
        simp only [hA, hN] at h
        split at h
        · simp at h
        · simp only [Except.ok.injEq] at h
          subst h
          simp only
          omega

/-- The failing input of C1: namespace `ns1`, the OCI descriptor, a fresh
process in which every collaborator succeeds. -/
theorem C1_first_success_is_not_cached_witness :
    freshWorld.helmActionConfigCache.lookup "ns1" = none ∧
    GetHelmActionConfig happyEnv someCtx "ns1" (some ociDeployment.toAgentDeployment) freshWorld
      = (.ok { addr := 0,
               RegistryClient := some { authorizer := { credentials := "token" } },
               initNamespace := "ns1", helmDriver := "secret" },
         (GetHelmActionConfig happyEnv someCtx "ns1"
            (some ociDeployment.toAgentDeployment) freshWorld).2) ∧
    (GetHelmActionConfig happyEnv someCtx "ns1"
        (some ociDeployment.toAgentDeployment) freshWorld).2.helmActionConfigCache.lookup "ns1"
      = none ∧
    (GetHelmActionConfig happyEnv someCtx "ns1" (some ociDeployment.toAgentDeployment)
        (GetHelmActionConfig happyEnv someCtx "ns1"
          (some ociDeployment.toAgentDeployment) freshWorld).2).2.calls Event.isEnsureAuth
      = (GetHelmActionConfig happyEnv someCtx "ns1"
          (some ociDeployment.toAgentDeployment) freshWorld).2.calls Event.isEnsureAuth + 1 :=
  have h := C1_first_success_is_not_cached happyEnv someCtx "ns1"
    ociDeployment.toAgentDeployment ociDeployment.toAgentDeployment freshWorld
    (GetHelmActionConfig happyEnv someCtx "ns1"
      (some ociDeployment.toAgentDeployment) freshWorld).2
    { addr := 0, RegistryClient := some { authorizer := { credentials := "token" } },
      initNamespace := "ns1", helmDriver := "secret" }
    rfl rfl
  ⟨rfl, rfl, h.1, h.2.1⟩

/-! ## C2, C3: what the preflight hands to the chart resolver -/

/-- C2: `RunHelmPreflight` calls `LocateChart` exactly once, with the options
as it leaves them; in these `Version` is the descriptor's `ChartVersion`, and
`RepoURL` is the value on entry when `ChartUrl` is an OCI reference and
`ChartUrl` otherwise. -/
theorem C2_preflight_sets_version_and_repoURL (env : Env) (opts : ChartPathOptions)
    (d : api.KubernetesAgentDeployment) (w : World) :
    (RunHelmPreflight env opts d w).2.2.trace.filterMap Event.locatedWith
      = w.trace.filterMap Event.locatedWith ++ [(RunHelmPreflight env opts d w).2.1] ∧
    (RunHelmPreflight env opts d w).2.1.Version = d.ChartVersion ∧
    (RunHelmPreflight env opts d w).2.1.RepoURL
      = if env.IsOCI d.ChartUrl then opts.RepoURL else d.ChartUrl := by
  unfold RunHelmPreflight
  simp only
  cases hoci : env.IsOCI d.ChartUrl <;>
    simp only [Bool.false_eq_true, if_false, if_true] <;>
    (split
     · simp [World.record, Event.locatedWith]
     · split <;> simp [World.record, Event.locatedWith])

/-- C3 as stated fails: for the OCI descriptor with `ChartName = "app"` the
identifier given to `LocateChart` is the chart URL, and the same descriptor
with another OCI chart URL locates another identifier. -/
theorem C3_oci_locates_chartUrl_not_chartName :
    happyEnv.IsOCI ociDeployment.ChartUrl = true ∧
    happyEnv.IsOCI ociDeploymentElsewhere.ChartUrl = true ∧
    ociDeployment.ChartName = "app" ∧
    ociDeploymentElsewhere = { ociDeployment with ChartUrl := "oci://mirror/app" } ∧
    (RunHelmPreflight happyEnv someOptions ociDeployment freshWorld).2.2.trace.filterMap
      Event.locatedName = ["oci://registry/app"] ∧
    (RunHelmPreflight happyEnv someOptions ociDeploymentElsewhere freshWorld).2.2.trace.filterMap
      Event.locatedName = ["oci://mirror/app"] := by
  refine ⟨rfl, rfl, rfl, rfl, rfl, rfl⟩

/-- C3 (amended): `RunHelmPreflight` calls `LocateChart` exactly once; the
chart identifier it passes is the descriptor's `ChartUrl` when `ChartUrl` is an
OCI reference, and the descriptor's `ChartName` (with `RepoURL` set to
`ChartUrl`) when it is not. -/
theorem C3_located_identifier (env : Env) (opts : ChartPathOptions)
    (d : api.KubernetesAgentDeployment) (w : World) :
    (RunHelmPreflight env opts d w).2.2.trace.filterMap Event.locatedName
      = w.trace.filterMap Event.locatedName
          ++ [if env.IsOCI d.ChartUrl then d.ChartUrl else d.ChartName] ∧
    (env.IsOCI d.ChartUrl = false →
      (RunHelmPreflight env opts d w).2.1.RepoURL = d.ChartUrl) := by
  unfold RunHelmPreflight
  simp only
  cases hoci : env.IsOCI d.ChartUrl <;>
    simp only [Bool.false_eq_true, if_false, if_true] <;>
    (split
     · simp [World.record, Event.locatedName]
     · split <;> simp [World.record, Event.locatedName])

/-- C3 (amended) at the repository descriptor and at the OCI descriptor. -/
theorem C3_located_identifier_witness :
    happyEnv.IsOCI repoDeployment.ChartUrl = false ∧
    (RunHelmPreflight happyEnv someOptions repoDeployment freshWorld).2.1.RepoURL
      = "https://charts.example.com" ∧
    (RunHelmPreflight happyEnv someOptions repoDeployment freshWorld).2.2.trace.filterMap
      Event.locatedName = ["nginx"] :=
  ⟨rfl, (C3_located_identifier happyEnv someOptions repoDeployment freshWorld).2 rfl,
    (C3_located_identifier happyEnv someOptions repoDeployment freshWorld).1⟩

/-! ## Which calls each function can add to the trace -/

/-- `GetHelmActionConfig` only appends calls to the authenticator, to
`registry.NewClient` and to `Init`. -/
theorem GetHelmActionConfig_trace (env : Env) (ctx : Context) (ns : String)
    (d : Option api.AgentDeployment) (w : World) :
    ∃ evs, (GetHelmActionConfig env ctx ns d w).2.trace = w.trace ++ evs ∧
      ∀ ev ∈ evs, ev.isConnection = true := by
  cases hl : w.helmActionConfigCache.lookup ns with
  | some cfg =>
    rw [GetHelmActionConfig_hit env ctx ns d w cfg hl]
    exact ⟨[], by simp, by simp⟩
  | none =>
    cases d with
    | none =>
      rw [GetHelmActionConfig_miss_none env ctx ns w hl]
      simp only
      split <;> exact ⟨_, rfl, by simp [Event.isConnection, Event.isInit]⟩
    | some d =>
      rw [GetHelmActionConfig_miss_some env ctx ns d w hl]
      split
      · exact ⟨_, rfl, by simp [Event.isConnection, Event.isEnsureAuth]⟩
      · split
        · exact ⟨_, rfl, by simp [Event.isConnection, Event.isEnsureAuth, Event.isNewClient]⟩
        · simp only
          split <;> exact ⟨_, rfl, by
            simp [Event.isConnection, Event.isEnsureAuth, Event.isNewClient, Event.isInit]⟩

/-- Without a descriptor `GetHelmActionConfig` only appends calls to `Init`. -/
theorem GetHelmActionConfig_nil_trace (env : Env) (ctx : Context) (ns : String) (w : World) :
    ∃ evs, (GetHelmActionConfig env ctx ns none w).2.trace = w.trace ++ evs ∧
      ∀ ev ∈ evs, ev.isInit = true := by
  cases hl : w.helmActionConfigCache.lookup ns with
  | some cfg =>
    rw [GetHelmActionConfig_hit env ctx ns none w cfg hl]
    exact ⟨[], by simp, by simp⟩
  | none =>
    rw [GetHelmActionConfig_miss_none env ctx ns w hl]
    simp only
    split <;> exact ⟨_, rfl, by simp [Event.isInit]⟩

/-- `RunHelmPreflight` only appends calls to `LocateChart` and `loader.Load`. -/
theorem RunHelmPreflight_trace (env : Env) (opts : ChartPathOptions)
    (d : api.KubernetesAgentDeployment) (w : World) :
    ∃ evs, (RunHelmPreflight env opts d w).2.2.trace = w.trace ++ evs ∧
      ∀ ev ∈ evs, ev.isResolver = true := by
  unfold RunHelmPreflight
  simp only
  split
  · exact ⟨_, rfl, by simp [Event.isResolver]⟩
  · split <;> exact ⟨_, by simp only [record_trace, List.append_assoc]; rfl, by
      simp [Event.isResolver]⟩

/-- Counting calls of a kind that a list of appended calls does not contain. -/
theorem countP_append_of_forall_false (p : Event → Bool) (xs evs : List Event)
    (h : ∀ ev ∈ evs, p ev = false) : (xs ++ evs).countP p = xs.countP p := by
  rw [List.countP_append]
  have : evs.countP p = 0 := by
    rw [List.countP_eq_zero]
    intro ev hev
    simp [h ev hev]
  omega

/-! ## Texts of wrapped errors -/

theorem HasPrefix_append (pre s : String) : HasPrefix (pre ++ s) pre = true := by
  simp [HasPrefix]

/-- A text that starts with `q` does not start with `p` when `p` and `q`
differ within their first `k` characters. -/
theorem HasPrefix_append_of_take_ne (p q s : String) (k : Nat)
    (hkp : k ≤ p.data.length) (hkq : k ≤ q.data.length)
    (hne : p.data.take k ≠ q.data.take k) : HasPrefix (q ++ s) p = false := by
  cases h : HasPrefix (q ++ s) p with
  | false => rfl
  | true =>
    exfalso
    simp only [HasPrefix, String.data_append, List.isPrefixOf_iff_prefix] at h
    obtain ⟨r, hr⟩ := h
    apply hne
    have h1 : (p.data ++ r).take k = p.data.take k := List.take_append_of_le_length hkp
    have h2 : (q.data ++ s.data).take k = q.data.take k := List.take_append_of_le_length hkq
    rw [← h1, ← h2, hr]

/-- Five minutes, as a `time.Duration`, are 300 seconds, that is 300000000000
nanoseconds. -/
theorem five_minutes : 5 * Minute = 300 * Second ∧ 5 * Minute = 300000000000 := by
  constructor <;> decide

/-! ## C4: uninstall -/

/-- What `RunHelmUninstall` does once the connection handle is obtained. -/
theorem RunHelmUninstall_of_config (env : Env) (ctx : Context) (ns releaseName : String)
    (w w1 : World) (cfg : Configuration)
    (hcfg : GetHelmActionConfig env ctx ns none w = (.ok cfg, w1)) :
    RunHelmUninstall env ctx ns releaseName w =
      (match env.UninstallRun (uninstallAction env cfg) releaseName with
        | .error err => some (Errorf "helm uninstall failed: " err)
        | .ok _ => none,
       w1.record (.uninstall (uninstallAction env cfg) releaseName)) := by
  unfold RunHelmUninstall
  rw [hcfg]
  simp only
  split <;> rfl

/-- What `RunHelmUninstall` does when the connection handle is not obtained. -/
theorem RunHelmUninstall_of_config_error (env : Env) (ctx : Context) (ns releaseName : String)
    (w w1 : World) (err : GoError)
    (hcfg : GetHelmActionConfig env ctx ns none w = (.error err, w1)) :
    RunHelmUninstall env ctx ns releaseName w = (some err, w1) := by
  unfold RunHelmUninstall
  rw [hcfg]

/-- C4: `RunHelmUninstall` adds no call to the authenticator and builds no
registry client; a backend uninstall it makes has `Timeout` five minutes,
`Wait` and `IgnoreNotFound` set and is for the given release name; it returns
`nil` exactly when the handle is obtained and that backend uninstall returns no
error; so with a backend that returns no error for this release whenever
`IgnoreNotFound` is set, it returns `nil`; and a handle built on a cache miss
has no registry client. -/
theorem C4_uninstall_without_auth (env : Env) (ctx : Context) (ns releaseName : String)
    (w : World) :
    (RunHelmUninstall env ctx ns releaseName w).2.calls Event.isEnsureAuth
      = w.calls Event.isEnsureAuth ∧
    (RunHelmUninstall env ctx ns releaseName w).2.calls Event.isNewClient
      = w.calls Event.isNewClient ∧
    (∀ a n, Event.uninstall a n ∈ (RunHelmUninstall env ctx ns releaseName w).2.trace →
      Event.uninstall a n ∈ w.trace ∨
      (a.Timeout = 5 * Minute ∧ a.Wait = true ∧ a.IgnoreNotFound = true ∧ n = releaseName)) ∧
    ((RunHelmUninstall env ctx ns releaseName w).1 = none ↔
      ∃ cfg w1 a, GetHelmActionConfig env ctx ns none w = (.ok cfg, w1) ∧
        (RunHelmUninstall env ctx ns releaseName w).2.trace
          = w1.trace ++ [Event.uninstall a releaseName] ∧
        a.Timeout = 5 * Minute ∧ a.Wait = true ∧ a.IgnoreNotFound = true ∧
        env.UninstallRun a releaseName = .ok ()) ∧
    (∀ cfg w1, GetHelmActionConfig env ctx ns none w = (.ok cfg, w1) →
      (∀ a, a.IgnoreNotFound = true → env.UninstallRun a releaseName = .ok ()) →
      (RunHelmUninstall env ctx ns releaseName w).1 = none) ∧
    (∀ cfg w1, w.helmActionConfigCache.lookup ns = none →
      GetHelmActionConfig env ctx ns none w = (.ok cfg, w1) → cfg.RegistryClient = none) := by
  obtain ⟨evs, htr, hevs⟩ := GetHelmActionConfig_nil_trace env ctx ns w
  have hA : ∀ ev ∈ evs, ev.isEnsureAuth = false := by
    intro ev hev
    have := hevs ev hev
    cases ev <;> simp_all [Event.isInit, Event.isEnsureAuth]
  have hN : ∀ ev ∈ evs, ev.isNewClient = false := by
    intro ev hev
    have := hevs ev hev
    cases ev <;> simp_all [Event.isInit, Event.isNewClient]
  have hU : ∀ a n, Event.uninstall a n ∉ evs := by
    intro a n hmem
    have := hevs _ hmem
    simp [Event.isInit] at this
  cases hg : GetHelmActionConfig env ctx ns none w with
  | mk res w1 =>
    rw [hg] at htr
    simp only at htr
    cases res with
    | error err =>
      rw [RunHelmUninstall_of_config_error env ctx ns releaseName w w1 err hg]
      refine ⟨?_, ?_, ?_, ?_, ?_, ?_⟩
      · simp only [World.calls, htr]
        exact countP_append_of_forall_false _ _ _ hA
      · simp only [World.calls, htr]
        exact countP_append_of_forall_false _ _ _ hN
      · intro a n hmem
        simp only [htr, List.mem_append] at hmem
        rcases hmem with h | h
        · exact Or.inl h
        · exact absurd h (hU a n)
      · simp
      · intro cfg w2 h
        simp at h
      · intro cfg w2 _ h
        simp at h
    | ok cfg =>
      rw [RunHelmUninstall_of_config env ctx ns releaseName w w1 cfg hg]
      refine ⟨?_, ?_, ?_, ?_, ?_, ?_⟩
      · simp only [World.calls, record_trace, htr]
        rw [countP_append_of_forall_false _ _ _ (by simp [Event.isEnsureAuth])]
        exact countP_append_of_forall_false _ _ _ hA
      · simp only [World.calls, record_trace, htr]
        rw [countP_append_of_forall_false _ _ _ (by simp [Event.isNewClient])]
        exact countP_append_of_forall_false _ _ _ hN
      · intro a n hmem
        simp only [record_trace, htr, List.mem_append, List.mem_singleton] at hmem
        rcases hmem with (h | h) | h
        · exact Or.inl h
        · exact absurd h (hU a n)
        · right
          simp only [Event.uninstall.injEq] at h
          obtain ⟨ha, hn⟩ := h
          subst ha hn
          exact ⟨rfl, rfl, rfl, rfl⟩
      · constructor
        · intro h
          refine ⟨cfg, w1, uninstallAction env cfg, rfl, rfl, rfl, rfl, rfl, ?_⟩
          cases hu : env.UninstallRun (uninstallAction env cfg) releaseName with
          | error e => simp [hu] at h
          | ok u => rfl
        · rintro ⟨cfg', w1', a, hc, ht, -, -, -, hrun⟩
          simp only [Prod.mk.injEq, Except.ok.injEq] at hc
          obtain ⟨hc1, hc2⟩ := hc
          subst hc1 hc2
          simp only [record_trace, List.append_cancel_left_eq, List.cons.injEq,
            Event.uninstall.injEq, and_true] at ht
          rw [ht, hrun]
      · intro cfg' w1' _ hon
        rw [hon (uninstallAction env cfg) rfl]
      · intro cfg' w1' hmiss hc
        simp only [Prod.mk.injEq, Except.ok.injEq] at hc
        obtain ⟨hc1, -⟩ := hc
        subst hc1
        rw [GetHelmActionConfig_miss_none env ctx ns w hmiss] at hg
        simp only at hg
        split at hg
        · simp at hg
        · simp only [Prod.mk.injEq, Except.ok.injEq] at hg
          rw [← hg.1]

/-- C4 on the scenario of the specification: uninstalling the absent release
`does-not-exist` of namespace `ns1` in a fresh process, against a backend that
answers "not found" unless told to ignore it, succeeds. -/
theorem C4_uninstall_without_auth_witness :
    (∀ a : Uninstall, a.IgnoreNotFound = true →
      happyEnv.UninstallRun a "does-not-exist" = .ok ()) ∧
    happyEnv.UninstallRun (happyEnv.NewUninstall
      { addr := 0, RegistryClient := none, initNamespace := "ns1", helmDriver := "secret" })
      "does-not-exist" = .error (.base "release: not found") ∧
    (RunHelmUninstall happyEnv someCtx "ns1" "does-not-exist" freshWorld).1 = none :=
  have hon : ∀ a : Uninstall, a.IgnoreNotFound = true →
      happyEnv.UninstallRun a "does-not-exist" = .ok () := by
    intro a ha
    simp [happyEnv, ha]
  ⟨hon, rfl,
    (C4_uninstall_without_auth happyEnv someCtx "ns1" "does-not-exist" freshWorld).2.2.2.2.1
      { addr := 0, RegistryClient := none, initNamespace := "ns1", helmDriver := "secret" }
      (GetHelmActionConfig happyEnv someCtx "ns1" none freshWorld).2 rfl hon⟩

/-! ## C5: the latest release -/

/-- What `GetLatestHelmRelease` does once the connection handle is obtained. -/
theorem GetLatestHelmRelease_of_config (env : Env) (ctx : Context) (ns : String)
    (d : api.KubernetesAgentDeployment) (w w1 : World) (cfg : Configuration)
    (hcfg : GetHelmActionConfig env ctx ns (some d.toAgentDeployment) w = (.ok cfg, w1)) :
    GetLatestHelmRelease env ctx ns d w =
      (match env.HistoryRun (env.NewHistory cfg) d.ReleaseName with
        | .error err => .error err
        | .ok releases =>
          match index releases ((releases.length : Int) - 1) with
          | some r => .ok r
          | none => .panic "runtime error: index out of range",
       w1.record (.history (env.NewHistory cfg) d.ReleaseName)) := by
  unfold GetLatestHelmRelease
  rw [hcfg]
  simp only
  split
  · rfl
  · split <;> rfl

/-- Indexing a non-empty slice at `len - 1` gives its last element. -/
theorem index_last {α : Type} (xs : List α) (hne : xs ≠ []) :
    index xs ((xs.length : Int) - 1) = some (xs.getLast hne) := by
  have hlen : 0 < xs.length := List.length_pos.mpr hne
  have hnot : ¬ ((xs.length : Int) - 1 < 0) := by omega
  have hnat : ((xs.length : Int) - 1).toNat = xs.length - 1 := by omega
  unfold index
  rw [if_neg hnot, hnat, List.get?_eq_getElem?, ← List.getLast?_eq_getElem?,
    List.getLast?_eq_getLast _ hne]

/-- With a non-empty history `GetLatestHelmRelease` returns its last element. -/
theorem GetLatestHelmRelease_nonempty (env : Env) (ctx : Context) (ns : String)
    (d : api.KubernetesAgentDeployment) (w w1 : World) (cfg : Configuration)
    (releases : List Release) (hne : releases ≠ [])
    (hcfg : GetHelmActionConfig env ctx ns (some d.toAgentDeployment) w = (.ok cfg, w1))
    (hhist : env.HistoryRun (env.NewHistory cfg) d.ReleaseName = .ok releases) :
    (GetLatestHelmRelease env ctx ns d w).1 = .ok (releases.getLast hne) := by
  rw [GetLatestHelmRelease_of_config env ctx ns d w w1 cfg hcfg, hhist]
  simp only [index_last releases hne]

/-- When the history query fails, `GetLatestHelmRelease` returns its error. -/
theorem GetLatestHelmRelease_history_error (env : Env) (ctx : Context) (ns : String)
    (d : api.KubernetesAgentDeployment) (w w1 : World) (cfg : Configuration) (err : GoError)
    (hcfg : GetHelmActionConfig env ctx ns (some d.toAgentDeployment) w = (.ok cfg, w1))
    (hhist : env.HistoryRun (env.NewHistory cfg) d.ReleaseName = .error err) :
    (GetLatestHelmRelease env ctx ns d w).1 = .error err := by
  rw [GetLatestHelmRelease_of_config env ctx ns d w w1 cfg hcfg, hhist]

/-- C5 (the code does not do this): when the connection handle is obtained and
the history query answers with an empty sequence and no error,
`GetLatestHelmRelease` evaluates `releases[len(releases)-1]` at index `-1` and
panics with "index out of range"; it does not return an error value. -/
theorem C5_empty_history_panics (env : Env) (ctx : Context) (ns : String)
    (d : api.KubernetesAgentDeployment) (w w1 : World) (cfg : Configuration)
    (hcfg : GetHelmActionConfig env ctx ns (some d.toAgentDeployment) w = (.ok cfg, w1))
    (hhist : env.HistoryRun (env.NewHistory cfg) d.ReleaseName = .ok []) :
    (GetLatestHelmRelease env ctx ns d w).1 = .panic "runtime error: index out of range" ∧
    ∀ err, (GetLatestHelmRelease env ctx ns d w).1 ≠ .error err := by
  rw [GetLatestHelmRelease_of_config env ctx ns d w w1 cfg hcfg, hhist]
  refine ⟨rfl, ?_⟩
  intro err h
  simp [index] at h

/-- The failing input of C5: the release `app` of namespace `ns1`, a fresh
process, and a backend whose history query returns no revisions and no error. -/
theorem C5_empty_history_panics_witness :
    emptyHistoryEnv.HistoryRun (emptyHistoryEnv.NewHistory
      { addr := 0, RegistryClient := some { authorizer := { credentials := "token" } },
        initNamespace := "ns1", helmDriver := "secret" }) "app" = .ok [] ∧
    (GetLatestHelmRelease emptyHistoryEnv someCtx "ns1" ociDeployment freshWorld).1
      = .panic "runtime error: index out of range" :=
  ⟨rfl, (C5_empty_history_panics emptyHistoryEnv someCtx "ns1" ociDeployment freshWorld
    (GetHelmActionConfig emptyHistoryEnv someCtx "ns1"
      (some ociDeployment.toAgentDeployment) freshWorld).2
    { addr := 0, RegistryClient := some { authorizer := { credentials := "token" } },
      initNamespace := "ns1", helmDriver := "secret" } rfl rfl).1⟩

/-! ## Install and upgrade -/

/-- What `RunHelmInstall` does once the connection handle is obtained. -/
theorem RunHelmInstall_of_config (env : Env) (ctx : Context) (ns : String)
    (d : api.KubernetesAgentDeployment) (w w1 : World) (cfg : Configuration)
    (hcfg : GetHelmActionConfig env ctx ns (some d.toAgentDeployment) w = (.ok cfg, w1)) :
    RunHelmInstall env ctx ns d w =
      match RunHelmPreflight env (installAction env cfg ns d).toChartPathOptions d w1 with
      | (.error err, _, w2) => (.error (Errorf "helm preflight failed: " err), w2)
      | (.ok chart, opts, w2) =>
        match env.InstallRun { installAction env cfg ns d with toChartPathOptions := opts }
            ctx chart d.Values with
        | .error err =>
          (.error (Errorf "helm install failed: " err),
            w2.record (.install { installAction env cfg ns d with toChartPathOptions := opts }
              ctx chart d.Values))
        | .ok release =>
          (.ok { ReleaseName := release.Name, HelmRevision := release.Version,
                 RevisionID := d.RevisionID },
            w2.record (.install { installAction env cfg ns d with toChartPathOptions := opts }
              ctx chart d.Values)) := by
  unfold RunHelmInstall
  rw [hcfg]

/-- What `RunHelmUpgrade` does once the connection handle is obtained. -/
theorem RunHelmUpgrade_of_config (env : Env) (ctx : Context) (ns : String)
    (d : api.KubernetesAgentDeployment) (w w1 : World) (cfg : Configuration)
    (hcfg : GetHelmActionConfig env ctx ns (some d.toAgentDeployment) w = (.ok cfg, w1)) :
    RunHelmUpgrade env ctx ns d w =
      match RunHelmPreflight env (upgradeAction env cfg ns).toChartPathOptions d w1 with
      | (.error err, _, w2) => (.error (Errorf "helm preflight failed: " err), w2)
      | (.ok chart, opts, w2) =>
        match env.UpgradeRun { upgradeAction env cfg ns with toChartPathOptions := opts }
            ctx d.ReleaseName chart d.Values with
        | .error err =>
          (.error (Errorf "helm upgrade failed: " err),
            w2.record (.upgrade { upgradeAction env cfg ns with toChartPathOptions := opts }
              ctx d.ReleaseName chart d.Values))
        | .ok release =>
          (.ok { ReleaseName := release.Name, HelmRevision := release.Version,
                 RevisionID := d.RevisionID },
            w2.record (.upgrade { upgradeAction env cfg ns with toChartPathOptions := opts }
              ctx d.ReleaseName chart d.Values)) := by
  unfold RunHelmUpgrade
  rw [hcfg]

/-- When the connection handle is not obtained, the four operations that take
a descriptor return the error of `GetHelmActionConfig` itself. -/
theorem operations_of_config_error (env : Env) (ctx : Context) (ns : String)
    (d : api.KubernetesAgentDeployment) (w w1 : World) (err : GoError)
    (hcfg : GetHelmActionConfig env ctx ns (some d.toAgentDeployment) w = (.error err, w1)) :
    RunHelmInstall env ctx ns d w = (.error err, w1) ∧
    RunHelmUpgrade env ctx ns d w = (.error err, w1) ∧
    GetLatestHelmRelease env ctx ns d w = (.error err, w1) ∧
    GetHelmManifest env ctx ns d w = (.error err, w1) := by
  unfold RunHelmInstall RunHelmUpgrade GetLatestHelmRelease GetHelmManifest
  rw [hcfg]
  exact ⟨rfl, rfl, rfl, rfl⟩

/-! ## C6: the release record -/

/-- C6: when `RunHelmInstall` (respectively `RunHelmUpgrade`) returns a record,
its last call was the backend install (upgrade) with the descriptor's values,
that call returned a release, and the record is made of that release's `Name`
and `Version` and of the descriptor's `RevisionID`, and of nothing else. -/
theorem C6_release_record (env : Env) (ctx : Context) (ns : String)
    (d : api.KubernetesAgentDeployment) (w : World) (rec : AgentDeployment) :
    ((RunHelmInstall env ctx ns d w).1 = .ok rec →
      ∃ a chart release,
        (RunHelmInstall env ctx ns d w).2.trace.getLast?
          = some (Event.install a ctx chart d.Values) ∧
        env.InstallRun a ctx chart d.Values = .ok release ∧
        rec = { ReleaseName := release.Name, HelmRevision := release.Version,
                RevisionID := d.RevisionID }) ∧
    ((RunHelmUpgrade env ctx ns d w).1 = .ok rec →
      ∃ a chart release,
        (RunHelmUpgrade env ctx ns d w).2.trace.getLast?
          = some (Event.upgrade a ctx d.ReleaseName chart d.Values) ∧
        env.UpgradeRun a ctx d.ReleaseName chart d.Values = .ok release ∧
        rec = { ReleaseName := release.Name, HelmRevision := release.Version,
                RevisionID := d.RevisionID }) := by
  cases hg : GetHelmActionConfig env ctx ns (some d.toAgentDeployment) w with
  | mk res w1 =>
    cases res with
    | error err =>
      obtain ⟨h1, h2, -, -⟩ := operations_of_config_error env ctx ns d w w1 err hg
      rw [h1, h2]
      simp
    | ok cfg =>
      constructor
      · rw [RunHelmInstall_of_config env ctx ns d w w1 cfg hg]
        cases hp : RunHelmPreflight env (installAction env cfg ns d).toChartPathOptions d w1 with
        | mk pr rest =>
          obtain ⟨opts, w2⟩ := rest
          cases pr with
          | error e => simp
          | ok chart =>
            simp only
            cases hi : env.InstallRun
                { installAction env cfg ns d with toChartPathOptions := opts }
                ctx chart d.Values with
            | error e => simp
            | ok release =>
              intro h
              simp only [Except.ok.injEq] at h
              exact ⟨_, chart, release, by simp [record_trace], hi, h.symm⟩
      · rw [RunHelmUpgrade_of_config env ctx ns d w w1 cfg hg]
        cases hp : RunHelmPreflight env (upgradeAction env cfg ns).toChartPathOptions d w1 with
        | mk pr rest =>
          obtain ⟨opts, w2⟩ := rest
          cases pr with
          | error e => simp
          | ok chart =>
            simp only
            cases hi : env.UpgradeRun
                { upgradeAction env cfg ns with toChartPathOptions := opts }
                ctx d.ReleaseName chart d.Values with
            | error e => simp
            | ok release =>
              intro h
              simp only [Except.ok.injEq] at h
              exact ⟨_, chart, release, by simp [record_trace], hi, h.symm⟩

/-- C6 on the install scenario of the specification, and on the upgrade of the
same descriptor: the record has the backend's version and the descriptor's
revision identifier. -/
theorem C6_release_record_witness :
    (RunHelmInstall happyEnv someCtx "ns1" ociDeployment freshWorld).1
      = .ok { ReleaseName := "app", HelmRevision := 1, RevisionID := "rev-7" } ∧
    (∃ a chart release,
      happyEnv.InstallRun a someCtx chart ociDeployment.Values = .ok release ∧
      ({ ReleaseName := "app", HelmRevision := 1, RevisionID := "rev-7" } : AgentDeployment)
        = { ReleaseName := release.Name, HelmRevision := release.Version,
            RevisionID := ociDeployment.RevisionID }) ∧
    (RunHelmUpgrade happyEnv someCtx "ns1" ociDeployment freshWorld).1
      = .ok { ReleaseName := "app", HelmRevision := 2, RevisionID := "rev-7" } ∧
    (∃ a chart release,
      happyEnv.UpgradeRun a someCtx ociDeployment.ReleaseName chart ociDeployment.Values
        = .ok release ∧
      ({ ReleaseName := "app", HelmRevision := 2, RevisionID := "rev-7" } : AgentDeployment)
        = { ReleaseName := release.Name, HelmRevision := release.Version,
            RevisionID := ociDeployment.RevisionID }) :=
  have hi := (C6_release_record happyEnv someCtx "ns1" ociDeployment freshWorld
    { ReleaseName := "app", HelmRevision := 1, RevisionID := "rev-7" }).1 rfl
  have hu := (C6_release_record happyEnv someCtx "ns1" ociDeployment freshWorld
    { ReleaseName := "app", HelmRevision := 2, RevisionID := "rev-7" }).2 rfl
  ⟨rfl,
    hi.elim fun a h => h.elim fun chart h => h.elim fun release h =>
      ⟨a, chart, release, h.2.1, h.2.2⟩,
    rfl,
    hu.elim fun a h => h.elim fun chart h => h.elim fun release h =>
      ⟨a, chart, release, h.2.1, h.2.2⟩⟩

/-! ## C9: the two failures of the preflight -/

/-- C9: with the identifier and options that `RunHelmPreflight` gives to
`LocateChart`: if locating fails, the result is the locate error wrapped with
"could not locate chart: " and `loader.Load` is not called; if locating
succeeds and loading fails, the result is the load error wrapped with
"chart loading failed: "; neither text starts with the other prefix; and a
chart is returned exactly when both steps succeed, and it is the chart loaded
from the located path. -/
theorem C9_preflight_failures (env : Env) (opts : ChartPathOptions)
    (d : api.KubernetesAgentDeployment) (w : World) :
    (∀ err,
      env.LocateChart
          { RepoURL := if env.IsOCI d.ChartUrl then opts.RepoURL else d.ChartUrl,
            Version := d.ChartVersion }
          (if env.IsOCI d.ChartUrl then d.ChartUrl else d.ChartName)
          env.helmEnvSettings = .error err →
      (RunHelmPreflight env opts d w).1 = .error (Errorf "could not locate chart: " err) ∧
      (Errorf "could not locate chart: " err).Unwrap = some err ∧
      (RunHelmPreflight env opts d w).2.2.calls Event.isLoad = w.calls Event.isLoad ∧
      HasPrefix (Errorf "could not locate chart: " err).Error "could not locate chart: " = true ∧
      HasPrefix (Errorf "could not locate chart: " err).Error "chart loading failed: " = false) ∧
    (∀ chartPath err,
      env.LocateChart
          { RepoURL := if env.IsOCI d.ChartUrl then opts.RepoURL else d.ChartUrl,
            Version := d.ChartVersion }
          (if env.IsOCI d.ChartUrl then d.ChartUrl else d.ChartName)
          env.helmEnvSettings = .ok chartPath →
      env.Load chartPath = .error err →
      (RunHelmPreflight env opts d w).1 = .error (Errorf "chart loading failed: " err) ∧
      (Errorf "chart loading failed: " err).Unwrap = some err ∧
      HasPrefix (Errorf "chart loading failed: " err).Error "chart loading failed: " = true ∧
      HasPrefix (Errorf "chart loading failed: " err).Error "could not locate chart: " = false) ∧
    (∀ chart,
      (RunHelmPreflight env opts d w).1 = .ok chart ↔
      ∃ chartPath,
        env.LocateChart
          { RepoURL := if env.IsOCI d.ChartUrl then opts.RepoURL else d.ChartUrl,
            Version := d.ChartVersion }
          (if env.IsOCI d.ChartUrl then d.ChartUrl else d.ChartName)
          env.helmEnvSettings = .ok chartPath ∧
        env.Load chartPath = .ok chart) := by
  have hpre1 : ∀ err : GoError,
      HasPrefix (Errorf "could not locate chart: " err).Error "chart loading failed: " = false :=
    fun err => HasPrefix_append_of_take_ne _ _ _ 2 (by decide) (by decide) (by decide)
  have hpre2 : ∀ err : GoError,
      HasPrefix (Errorf "chart loading failed: " err).Error "could not locate chart: " = false :=
    fun err => HasPrefix_append_of_take_ne _ _ _ 2 (by decide) (by decide) (by decide)
  unfold RunHelmPreflight
  cases hoci : env.IsOCI d.ChartUrl <;>
    simp only [Bool.false_eq_true, if_false, if_true] <;>
    (refine ⟨?_, ?_, ?_⟩
     · intro err hl
       rw [hl]
       refine ⟨rfl, rfl, ?_, HasPrefix_append _ _, hpre1 err⟩
       simp [World.calls, World.record, Event.isLoad]
     · intro chartPath err hl hload
       rw [hl]
       simp only
       rw [hload]
       exact ⟨rfl, rfl, HasPrefix_append _ _, hpre2 err⟩
     · intro chart
       split
       · rename_i heq
         simp [heq]
       · rename_i chartPath heq
         simp only [heq, Except.ok.injEq, exists_eq_left']
         split
         · rename_i heq2
           simp [heq2]
         · rename_i heq2
           simp [heq2])

/-- C9 at three registries: one where no chart can be located, one where the
located chart does not load, and one where both steps succeed. -/
theorem C9_preflight_failures_witness :
    (RunHelmPreflight locateFailsEnv someOptions repoDeployment freshWorld).1
      = .error (.wrap "could not locate chart: " (.base "chart not found")) ∧
    (RunHelmPreflight locateFailsEnv someOptions repoDeployment freshWorld).2.2.calls
      Event.isLoad = 0 ∧
    (RunHelmPreflight loadFailsEnv someOptions repoDeployment freshWorld).1
      = .error (.wrap "chart loading failed: " (.base "invalid chart")) ∧
    (RunHelmPreflight happyEnv someOptions repoDeployment freshWorld).1
      = .ok { name := "/cache/nginx", version := "1.0.0" } :=
  have h1 := (C9_preflight_failures locateFailsEnv someOptions repoDeployment freshWorld).1
    (.base "chart not found") rfl
  have h2 := (C9_preflight_failures loadFailsEnv someOptions repoDeployment freshWorld).2.1
    "/cache/nginx" (.base "invalid chart") rfl rfl
  have h3 := ((C9_preflight_failures happyEnv someOptions repoDeployment freshWorld).2.2
    { name := "/cache/nginx", version := "1.0.0" }).2 ⟨"/cache/nginx", rfl, rfl⟩
  ⟨h1.1, h1.2.2.1, h2.1, h3⟩

/-! ## C7, C10: install and upgrade against the backend -/

/-- The trace after the connection handle and the preflight: the calls before,
then connection calls, then resolver calls. -/
theorem trace_after_preflight (env : Env) (ctx : Context) (ns : String)
    (d : api.KubernetesAgentDeployment) (w w1 w2 : World) (cfg : Configuration)
    (opts0 opts : ChartPathOptions) (pr : Except GoError Chart)
    (hcfg : GetHelmActionConfig env ctx ns (some d.toAgentDeployment) w = (.ok cfg, w1))
    (hp : RunHelmPreflight env opts0 d w1 = (pr, opts, w2)) :
    ∃ evs, w2.trace = w.trace ++ evs ∧
      ∀ ev ∈ evs, ev.isConnection = true ∨ ev.isResolver = true := by
  obtain ⟨evs1, h1, hc⟩ := GetHelmActionConfig_trace env ctx ns (some d.toAgentDeployment) w
  obtain ⟨evs2, h2, hr⟩ := RunHelmPreflight_trace env opts0 d w1
  rw [hcfg] at h1
  rw [hp] at h2
  simp only at h1 h2
  refine ⟨evs1 ++ evs2, by rw [h2, h1, List.append_assoc], ?_⟩
  intro ev hev
  rcases List.mem_append.mp hev with h | h
  · exact Or.inl (hc ev h)
  · exact Or.inr (hr ev h)

/-- C7: once the connection handle is obtained, if the preflight fails,
`RunHelmInstall` returns the preflight's error wrapped with
"helm preflight failed: " and makes no backend install; if the preflight
succeeds and the backend install fails, it returns the backend's error wrapped
with "helm install failed: "; the text of either error starts with its own
prefix and not with the other one. -/
theorem C7_install_failures (env : Env) (ctx : Context) (ns : String)
    (d : api.KubernetesAgentDeployment) (w w1 : World) (cfg : Configuration)
    (hcfg : GetHelmActionConfig env ctx ns (some d.toAgentDeployment) w = (.ok cfg, w1)) :
    (∀ err opts w2,
      RunHelmPreflight env (installAction env cfg ns d).toChartPathOptions d w1
        = (.error err, opts, w2) →
      (RunHelmInstall env ctx ns d w).1 = .error (Errorf "helm preflight failed: " err) ∧
      (Errorf "helm preflight failed: " err).Unwrap = some err ∧
      (RunHelmInstall env ctx ns d w).2.calls Event.isInstall = w.calls Event.isInstall ∧
      HasPrefix (Errorf "helm preflight failed: " err).Error "helm preflight failed: " = true ∧
      HasPrefix (Errorf "helm preflight failed: " err).Error "helm install failed: " = false) ∧
    (∀ chart opts w2 err,
      RunHelmPreflight env (installAction env cfg ns d).toChartPathOptions d w1
        = (.ok chart, opts, w2) →
      env.InstallRun { installAction env cfg ns d with toChartPathOptions := opts }
        ctx chart d.Values = .error err →
      (RunHelmInstall env ctx ns d w).1 = .error (Errorf "helm install failed: " err) ∧
      (Errorf "helm install failed: " err).Unwrap = some err ∧
      HasPrefix (Errorf "helm install failed: " err).Error "helm install failed: " = true ∧
      HasPrefix (Errorf "helm install failed: " err).Error "helm preflight failed: " = false) := by
  rw [RunHelmInstall_of_config env ctx ns d w w1 cfg hcfg]
  constructor
  · intro err opts w2 hp
    obtain ⟨evs, htr, hevs⟩ := trace_after_preflight env ctx ns d w w1 w2 cfg _ opts _ hcfg hp
    rw [hp]
    refine ⟨rfl, rfl, ?_, HasPrefix_append _ _,
      HasPrefix_append_of_take_ne _ _ _ 6 (by decide) (by decide) (by decide)⟩
    simp only [World.calls, htr]
    apply countP_append_of_forall_false
    intro ev hev
    rcases hevs ev hev with h | h <;>
      cases ev <;>
      simp_all [Event.isConnection, Event.isResolver, Event.isInstall, Event.isEnsureAuth,
        Event.isNewClient, Event.isInit]
  · intro chart opts w2 err hp hi
    rw [hp]
    simp only
    rw [hi]
    exact ⟨rfl, rfl, HasPrefix_append _ _,
      HasPrefix_append_of_take_ne _ _ _ 6 (by decide) (by decide) (by decide)⟩

/-- C7 at a registry where no chart can be located and at a backend that
refuses the install. -/
theorem C7_install_failures_witness :
    (RunHelmInstall locateFailsEnv someCtx "ns1" ociDeployment freshWorld).1
      = .error (.wrap "helm preflight failed: "
          (.wrap "could not locate chart: " (.base "chart not found"))) ∧
    (RunHelmInstall locateFailsEnv someCtx "ns1" ociDeployment freshWorld).2.calls
      Event.isInstall = 0 ∧
    (RunHelmInstall backendFailsEnv someCtx "ns1" ociDeployment freshWorld).1
      = .error (.wrap "helm install failed: "
          (.base "cannot re-use a name that is still in use")) :=
  have h1 := (C7_install_failures locateFailsEnv someCtx "ns1" ociDeployment freshWorld
    (GetHelmActionConfig locateFailsEnv someCtx "ns1"
      (some ociDeployment.toAgentDeployment) freshWorld).2
    { addr := 0, RegistryClient := some { authorizer := { credentials := "token" } },
      initNamespace := "ns1", helmDriver := "secret" } rfl).1
    (.wrap "could not locate chart: " (.base "chart not found")) _ _ rfl
  have h2 := (C7_install_failures backendFailsEnv someCtx "ns1" ociDeployment freshWorld
    (GetHelmActionConfig backendFailsEnv someCtx "ns1"
      (some ociDeployment.toAgentDeployment) freshWorld).2
    { addr := 0, RegistryClient := some { authorizer := { credentials := "token" } },
      initNamespace := "ns1", helmDriver := "secret" } rfl).2
    { name := "/cache/oci://registry/app", version := "1.0.0" } _ _
    (.base "cannot re-use a name that is still in use") rfl rfl
  ⟨h1.1, h1.2.2.1, h2.1⟩

/-- C10: a backend install that `RunHelmInstall` makes has `Timeout` five
minutes, `Wait` and `Atomic` set, `Namespace` the namespace argument and
`ReleaseName` the descriptor's release name; a backend upgrade that
`RunHelmUpgrade` makes has the same `Timeout`, `Wait`, `Atomic` and
`Namespace`, has `CleanupOnFail` set, and is for the descriptor's release name
with the descriptor's values. -/
theorem C10_backend_call_settings (env : Env) (ctx : Context) (ns : String)
    (d : api.KubernetesAgentDeployment) (w : World) :
    (∀ a c chart vals,
      Event.install a c chart vals ∈ (RunHelmInstall env ctx ns d w).2.trace →
      Event.install a c chart vals ∈ w.trace ∨
      (a.Timeout = 5 * Minute ∧ a.Wait = true ∧ a.Atomic = true ∧ a.Namespace = ns ∧
        a.ReleaseName = d.ReleaseName)) ∧
    (∀ a c name chart vals,
      Event.upgrade a c name chart vals ∈ (RunHelmUpgrade env ctx ns d w).2.trace →
      Event.upgrade a c name chart vals ∈ w.trace ∨
      (a.Timeout = 5 * Minute ∧ a.Wait = true ∧ a.Atomic = true ∧ a.Namespace = ns ∧
        a.CleanupOnFail = true ∧ name = d.ReleaseName ∧ vals = d.Values)) := by
  have hnotI : ∀ (evs : List Event) a c chart vals,
      (∀ ev ∈ evs, ev.isConnection = true ∨ ev.isResolver = true) →
      Event.install a c chart vals ∉ evs := by
    intro evs a c chart vals h hmem
    rcases h _ hmem with h | h <;>
      simp [Event.isConnection, Event.isResolver, Event.isEnsureAuth, Event.isNewClient,
        Event.isInit] at h
  have hnotU : ∀ (evs : List Event) a c name chart vals,
      (∀ ev ∈ evs, ev.isConnection = true ∨ ev.isResolver = true) →
      Event.upgrade a c name chart vals ∉ evs := by
    intro evs a c name chart vals h hmem
    rcases h _ hmem with h | h <;>
      simp [Event.isConnection, Event.isResolver, Event.isEnsureAuth, Event.isNewClient,
        Event.isInit] at h
  obtain ⟨evs1, h1, hc⟩ := GetHelmActionConfig_trace env ctx ns (some d.toAgentDeployment) w
  cases hg : GetHelmActionConfig env ctx ns (some d.toAgentDeployment) w with
  | mk res w1 =>
    rw [hg] at h1
    simp only at h1
    cases res with
    | error err =>
      obtain ⟨e1, e2, -, -⟩ := operations_of_config_error env ctx ns d w w1 err hg
      rw [e1, e2]
      simp only [h1, List.mem_append]
      constructor
      · intro a c chart vals hmem
        rcases hmem with h | h
        · exact Or.inl h
        · exact absurd h (hnotI evs1 a c chart vals (fun ev hev => Or.inl (hc ev hev)))
      · intro a c name chart vals hmem
        rcases hmem with h | h
        · exact Or.inl h
        · exact absurd h (hnotU evs1 a c name chart vals (fun ev hev => Or.inl (hc ev hev)))
    | ok cfg =>
      constructor
      · rw [RunHelmInstall_of_config env ctx ns d w w1 cfg hg]
        cases hp : RunHelmPreflight env (installAction env cfg ns d).toChartPathOptions d w1 with
        | mk pr rest =>
          obtain ⟨opts, w2⟩ := rest
          obtain ⟨evs, htr, hevs⟩ :=
            trace_after_preflight env ctx ns d w w1 w2 cfg _ opts pr hg hp
          intro a c chart vals
          cases pr with
          | error e =>
            simp only [htr, List.mem_append]
            rintro (h | h)
            · exact Or.inl h
            · exact absurd h (hnotI evs a c chart vals hevs)
          | ok ch =>
            simp only
            split <;>
            · simp only [record_trace, htr, List.mem_append, List.mem_singleton]
              rintro ((h | h) | h)
              · exact Or.inl h
              · exact absurd h (hnotI evs a c chart vals hevs)
              · right
                simp only [Event.install.injEq] at h
                obtain ⟨ha, -, -, -⟩ := h
                subst ha
                exact ⟨rfl, rfl, rfl, rfl, rfl⟩
      · rw [RunHelmUpgrade_of_config env ctx ns d w w1 cfg hg]
        cases hp : RunHelmPreflight env (upgradeAction env cfg ns).toChartPathOptions d w1 with
        | mk pr rest =>
          obtain ⟨opts, w2⟩ := rest
          obtain ⟨evs, htr, hevs⟩ :=
            trace_after_preflight env ctx ns d w w1 w2 cfg _ opts pr hg hp
          intro a c name chart vals
          cases pr with
          | error e =>
            simp only [htr, List.mem_append]
            rintro (h | h)
            · exact Or.inl h
            · exact absurd h (hnotU evs a c name chart vals hevs)
          | ok ch =>
            simp only
            split <;>
            · simp only [record_trace, htr, List.mem_append, List.mem_singleton]
              rintro ((h | h) | h)
              · exact Or.inl h
              · exact absurd h (hnotU evs a c name chart vals hevs)
              · right
                simp only [Event.upgrade.injEq] at h
                obtain ⟨ha, -, hn, -, hv⟩ := h
                subst ha hn hv
                exact ⟨rfl, rfl, rfl, rfl, rfl, rfl, rfl⟩

/-- C10 on the install scenario of the specification and on the upgrade of the
same descriptor: the backend is reached, with the settings of the claim. -/
theorem C10_backend_call_settings_witness :
    (RunHelmInstall happyEnv someCtx "ns1" ociDeployment freshWorld).2.trace.getLast?
      = some (Event.install ns1Install someCtx ociChart [("replicas", "2")]) ∧
    (ns1Install.Timeout = 5 * Minute ∧ ns1Install.Wait = true ∧ ns1Install.Atomic = true ∧
      ns1Install.Namespace = "ns1" ∧ ns1Install.ReleaseName = ociDeployment.ReleaseName) ∧
    (RunHelmUpgrade happyEnv someCtx "ns1" ociDeployment freshWorld).2.trace.getLast?
      = some (Event.upgrade ns1Upgrade someCtx "app" ociChart [("replicas", "2")]) ∧
    (ns1Upgrade.Timeout = 5 * Minute ∧ ns1Upgrade.Wait = true ∧ ns1Upgrade.Atomic = true ∧
      ns1Upgrade.Namespace = "ns1" ∧ ns1Upgrade.CleanupOnFail = true ∧
      "app" = ociDeployment.ReleaseName ∧ [("replicas", "2")] = ociDeployment.Values) :=
  have hi : (RunHelmInstall happyEnv someCtx "ns1" ociDeployment freshWorld).2.trace.getLast?
      = some (Event.install ns1Install someCtx ociChart [("replicas", "2")]) := rfl
  have hu : (RunHelmUpgrade happyEnv someCtx "ns1" ociDeployment freshWorld).2.trace.getLast?
      = some (Event.upgrade ns1Upgrade someCtx "app" ociChart [("replicas", "2")]) := rfl
  ⟨hi,
    ((C10_backend_call_settings happyEnv someCtx "ns1" ociDeployment freshWorld).1
      ns1Install someCtx ociChart [("replicas", "2")]
      (List.mem_of_mem_getLast? hi)).resolve_left (List.not_mem_nil _),
    hu,
    ((C10_backend_call_settings happyEnv someCtx "ns1" ociDeployment freshWorld).2
      ns1Upgrade someCtx "app" ociChart [("replicas", "2")]
      (List.mem_of_mem_getLast? hu)).resolve_left (List.not_mem_nil _)⟩

/-! ## C8: which errors are wrapped -/

/-- What `GetHelmManifest` does once the connection handle is obtained. -/
theorem GetHelmManifest_of_config (env : Env) (ctx : Context) (ns : String)
    (d : api.KubernetesAgentDeployment) (w w1 : World) (cfg : Configuration)
    (hcfg : GetHelmActionConfig env ctx ns (some d.toAgentDeployment) w = (.ok cfg, w1)) :
    GetHelmManifest env ctx ns d w =
      (match env.GetRun (env.NewGet cfg) d.ReleaseName with
        | .error err => .error err
        | .ok release => env.DecodeResourceYaml release.Manifest,
       w1.record (.get (env.NewGet cfg) d.ReleaseName)) := by
  unfold GetHelmManifest
  rw [hcfg]
  simp only
  split <;> rfl

/-- C8 as stated fails: when the authenticator refuses with "unauthorized",
the four operations that take a descriptor return that very error, which wraps
nothing and names no operation; so does `RunHelmUninstall` with the error of
`Init`, and so do `GetLatestHelmRelease` and `GetHelmManifest` with the error
of the history query and of the get query. -/
theorem C8_errors_returned_unchanged :
    (GetHelmActionConfig authFailsEnv someCtx "ns1"
      (some ociDeployment.toAgentDeployment) freshWorld).1 = .error (.base "unauthorized") ∧
    (RunHelmInstall authFailsEnv someCtx "ns1" ociDeployment freshWorld).1
      = .error (.base "unauthorized") ∧
    (RunHelmUpgrade authFailsEnv someCtx "ns1" ociDeployment freshWorld).1
      = .error (.base "unauthorized") ∧
    (GetLatestHelmRelease authFailsEnv someCtx "ns1" ociDeployment freshWorld).1
      = .error (.base "unauthorized") ∧
    (GetHelmManifest authFailsEnv someCtx "ns1" ociDeployment freshWorld).1
      = .error (.base "unauthorized") ∧
    (GoError.base "unauthorized").Unwrap = none ∧
    (GoError.base "unauthorized").Error = "unauthorized" ∧
    (GetHelmActionConfig initFailsEnv someCtx "ns1" none freshWorld).1
      = .error (.base "cluster unreachable") ∧
    (RunHelmUninstall initFailsEnv someCtx "ns1" "app" freshWorld).1
      = some (.base "cluster unreachable") ∧
    backendFailsEnv.HistoryRun (backendFailsEnv.NewHistory ns1Config) "app"
      = .error (.base "release: not found") ∧
    (GetLatestHelmRelease backendFailsEnv someCtx "ns1" ociDeployment freshWorld).1
      = .error (.base "release: not found") ∧
    backendFailsEnv.GetRun (backendFailsEnv.NewGet ns1Config) "app"
      = .error (.base "release: not found") ∧
    (GetHelmManifest backendFailsEnv someCtx "ns1" ociDeployment freshWorld).1
      = .error (.base "release: not found") := by
  refine ⟨rfl, rfl, rfl, rfl, rfl, rfl, rfl, rfl, rfl, rfl, rfl, rfl, rfl⟩

/-- C8 (amended): an error from the construction of the connection handle is
returned unchanged by all five operations, and so are the errors of the history
query and of the get query; an error that `RunHelmInstall`, `RunHelmUpgrade` or
`RunHelmUninstall` returns is either that unchanged connection error or an
error wrapped with one of the fixed texts "helm preflight failed: ",
"helm install failed: ", "helm upgrade failed: ", "helm uninstall failed: ",
which name the step and contain neither the namespace nor the release name. -/
theorem C8_error_wrapping (env : Env) (ctx : Context) (ns releaseName : String)
    (d : api.KubernetesAgentDeployment) (w : World) :
    (∀ err w1,
      GetHelmActionConfig env ctx ns (some d.toAgentDeployment) w = (.error err, w1) →
      (RunHelmInstall env ctx ns d w).1 = .error err ∧
      (RunHelmUpgrade env ctx ns d w).1 = .error err ∧
      (GetLatestHelmRelease env ctx ns d w).1 = .error err ∧
      (GetHelmManifest env ctx ns d w).1 = .error err) ∧
    (∀ err w1,
      GetHelmActionConfig env ctx ns none w = (.error err, w1) →
      (RunHelmUninstall env ctx ns releaseName w).1 = some err) ∧
    (∀ cfg w1 err,
      GetHelmActionConfig env ctx ns (some d.toAgentDeployment) w = (.ok cfg, w1) →
      env.HistoryRun (env.NewHistory cfg) d.ReleaseName = .error err →
      (GetLatestHelmRelease env ctx ns d w).1 = .error err) ∧
    (∀ cfg w1 err,
      GetHelmActionConfig env ctx ns (some d.toAgentDeployment) w = (.ok cfg, w1) →
      env.GetRun (env.NewGet cfg) d.ReleaseName = .error err →
      (GetHelmManifest env ctx ns d w).1 = .error err) ∧
    (∀ err, (RunHelmInstall env ctx ns d w).1 = .error err →
      (GetHelmActionConfig env ctx ns (some d.toAgentDeployment) w).1 = .error err ∨
      (∃ cause, err = Errorf "helm preflight failed: " cause) ∨
      (∃ cause, err = Errorf "helm install failed: " cause)) ∧
    (∀ err, (RunHelmUpgrade env ctx ns d w).1 = .error err →
      (GetHelmActionConfig env ctx ns (some d.toAgentDeployment) w).1 = .error err ∨
      (∃ cause, err = Errorf "helm preflight failed: " cause) ∨
      (∃ cause, err = Errorf "helm upgrade failed: " cause)) ∧
    (∀ err, (RunHelmUninstall env ctx ns releaseName w).1 = some err →
      (GetHelmActionConfig env ctx ns none w).1 = .error err ∨
      (∃ cause, err = Errorf "helm uninstall failed: " cause)) := by
  refine ⟨?_, ?_, ?_, ?_, ?_, ?_, ?_⟩
  · intro err w1 hg
    obtain ⟨h1, h2, h3, h4⟩ := operations_of_config_error env ctx ns d w w1 err hg
    rw [h1, h2, h3, h4]
    exact ⟨rfl, rfl, rfl, rfl⟩
  · intro err w1 hg
    rw [RunHelmUninstall_of_config_error env ctx ns releaseName w w1 err hg]
  · intro cfg w1 err hg hh
    exact GetLatestHelmRelease_history_error env ctx ns d w w1 cfg err hg hh
  · intro cfg w1 err hg hh
    rw [GetHelmManifest_of_config env ctx ns d w w1 cfg hg, hh]
  · intro err
    cases hg : GetHelmActionConfig env ctx ns (some d.toAgentDeployment) w with
    | mk res w1 =>
      cases res with
      | error e =>
        rw [(operations_of_config_error env ctx ns d w w1 e hg).1]
        intro h
        simp only [Except.error.injEq] at h
        exact Or.inl (by rw [h])
      | ok cfg =>
        rw [RunHelmInstall_of_config env ctx ns d w w1 cfg hg]
        cases hp : RunHelmPreflight env (installAction env cfg ns d).toChartPathOptions d w1 with
        | mk pr rest =>
          obtain ⟨opts, w2⟩ := rest
          cases pr with
          | error e =>
            intro h
            simp only [Except.error.injEq] at h
            exact Or.inr (Or.inl ⟨e, h.symm⟩)
          | ok chart =>
            simp only
            split
            · intro h
              simp only [Except.error.injEq] at h
              exact Or.inr (Or.inr ⟨_, h.symm⟩)
            · intro h
              simp at h
  · intro err
    cases hg : GetHelmActionConfig env ctx ns (some d.toAgentDeployment) w with
    | mk res w1 =>
      cases res with
      | error e =>
        rw [(operations_of_config_error env ctx ns d w w1 e hg).2.1]
        intro h
        simp only [Except.error.injEq] at h
        exact Or.inl (by rw [h])
      | ok cfg =>
        rw [RunHelmUpgrade_of_config env ctx ns d w w1 cfg hg]
        cases hp : RunHelmPreflight env (upgradeAction env cfg ns).toChartPathOptions d w1 with
        | mk pr rest =>
          obtain ⟨opts, w2⟩ := rest
          cases pr with
          | error e =>
            intro h
            simp only [Except.error.injEq] at h
            exact Or.inr (Or.inl ⟨e, h.symm⟩)
          | ok chart =>
            simp only
            split
            · intro h
              simp only [Except.error.injEq] at h
              exact Or.inr (Or.inr ⟨_, h.symm⟩)
            · intro h
              simp at h
  · intro err
    cases hg : GetHelmActionConfig env ctx ns none w with
    | mk res w1 =>
      cases res with
      | error e =>
        rw [RunHelmUninstall_of_config_error env ctx ns releaseName w w1 e hg]
        intro h
        simp only [Option.some.injEq] at h
        exact Or.inl (by rw [h])
      | ok cfg =>
        rw [RunHelmUninstall_of_config env ctx ns releaseName w w1 cfg hg]
        simp only
        split
        · intro h
          simp only [Option.some.injEq] at h
          exact Or.inr ⟨_, h.symm⟩
        · intro h
          simp at h

/-- C8 (amended) at an authenticator that refuses, at a cluster on which
`Init` fails, and at a backend that refuses every call. -/
theorem C8_error_wrapping_witness :
    (RunHelmInstall authFailsEnv someCtx "ns1" ociDeployment freshWorld).1
      = .error (.base "unauthorized") ∧
    (RunHelmUninstall initFailsEnv someCtx "ns1" "app" freshWorld).1
      = some (.base "cluster unreachable") ∧
    (GetLatestHelmRelease backendFailsEnv someCtx "ns1" ociDeployment freshWorld).1
      = .error (.base "release: not found") ∧
    (GetHelmManifest backendFailsEnv someCtx "ns1" ociDeployment freshWorld).1
      = .error (.base "release: not found") ∧
    (RunHelmUninstall backendFailsEnv someCtx "ns1" "app" freshWorld).1
      = some (.wrap "helm uninstall failed: " (.base "uninstallation failed")) ∧
    ((GetHelmActionConfig backendFailsEnv someCtx "ns1" none freshWorld).1
        = .error (.wrap "helm uninstall failed: " (.base "uninstallation failed")) ∨
      ∃ cause, GoError.wrap "helm uninstall failed: " (.base "uninstallation failed")
        = Errorf "helm uninstall failed: " cause) ∧
    (RunHelmUpgrade backendFailsEnv someCtx "ns1" ociDeployment freshWorld).1
      = .error (.wrap "helm upgrade failed: " (.base "has no deployed releases")) :=
  have hun : (RunHelmUninstall backendFailsEnv someCtx "ns1" "app" freshWorld).1
      = some (.wrap "helm uninstall failed: " (.base "uninstallation failed")) := rfl
  ⟨((C8_error_wrapping authFailsEnv someCtx "ns1" "app" ociDeployment freshWorld).1
      (.base "unauthorized") _ rfl).1,
    (C8_error_wrapping initFailsEnv someCtx "ns1" "app" ociDeployment freshWorld).2.1
      (.base "cluster unreachable") _ rfl,
    (C8_error_wrapping backendFailsEnv someCtx "ns1" "app" ociDeployment freshWorld).2.2.1
      ns1Config _ (.base "release: not found") rfl rfl,
    (C8_error_wrapping backendFailsEnv someCtx "ns1" "app" ociDeployment freshWorld).2.2.2.1
      ns1Config _ (.base "release: not found") rfl rfl,
    hun,
    (C8_error_wrapping backendFailsEnv someCtx "ns1" "app" ociDeployment freshWorld).2.2.2.2.2.2
      _ hun,
    rfl⟩

end Distr
